import Mathlib

/-!
A shallow embedding of the ranking-result data model and export pipeline of
the Appraise `cs_rest` application (`appraise/cs_rest/models.py`), together
with theorems settling the specification claims about it.

Modelling conventions:
* Python dictionaries (XML attribute maps) are association lists
  `List (String × String)`; `List.lookup` models `d[key]`, with `none`
  standing for a raised `KeyError`.
* Fallible Python code (raised exceptions) is modelled with `Option`:
  a `none` result stands for an exception propagating out of the method.
* The XML parser (`xml.etree.ElementTree.fromstring`) is external library
  code; its outcome is passed in as an explicit `Except String _` value
  (`.error msg` stands for a raised `ParseError` carrying `msg`).
* Mutable per-object state is passed explicitly as small state structures;
  a method that assigns to `self` returns an updated state.
-/

namespace Appraise

/-- A candidate translation as stored on a `RankingTask` after parsing:
the pair `(text, attrib)` built from a `<translation>` element. -/
abbrev Translation := String × List (String × String)

/-- The dynamic (non-persisted) state of a `RankingTask` instance:
`item_xml` plus the fields recomputed by `reload_dynamic_fields`.
`attributes`, `source`, `reference`, `translations` all start out as the
class-level `None` defaults, modelled by `Option.none`. -/
structure ItemState where
  item_xml : String
  attributes : Option (List (String × String))
  source : Option (String × List (String × String))
  reference : Option (String × List (String × String))
  translations : Option (List Translation)
deriving DecidableEq

/-- The outcome of successfully parsing one item's XML: the root
attributes, the optional `source` and `reference` elements (text and
attributes), and the ordered `<translation>` children. -/
structure ItemXML where
  attrib : List (String × String)
  source : Option (String × List (String × String))
  reference : Option (String × List (String × String))
  translations : List Translation
deriving DecidableEq

/-- `RankingTask.reload_dynamic_fields` (models.py:472-498).  Reparses
`item_xml`.  On success it assigns `attributes` and `translations`
unconditionally but assigns `source` / `reference` only when the
corresponding element was found; on a `ParseError` it nulls `source`,
`reference` and `translations` (but not `attributes`); when `item_xml`
is empty it does nothing at all. -/
def RankingTask.reload_dynamic_fields (parsed : Except String ItemXML)
    (st : ItemState) : ItemState :=
  if st.item_xml = "" then st
  else
    match parsed with
    | Except.ok x =>
        { st with
          attributes := some x.attrib
          source := match x.source with
            | some s => some s
            | none => st.source
          reference := match x.reference with
            | some r => some r
            | none => st.reference
          translations := some x.translations }
    | Except.error _ =>
        { st with source := none, reference := none, translations := none }

/-- The dynamic state of a `HIT` instance: `hit_xml` plus the
`hit_attributes` map recomputed by `reload_dynamic_fields` (initially the
class-level `{}`). -/
structure HITState where
  hit_xml : String
  hit_attributes : List (String × String)
deriving DecidableEq

/-- `HIT.reload_dynamic_fields` (models.py:287-302).  On success the
attribute map is rebuilt from the XML root's attributes; on a `ParseError`
it becomes the single diagnostic entry `{'note': msg}`; when `hit_xml` is
empty nothing happens. -/
def HIT.reload_dynamic_fields (parsed : Except String (List (String × String)))
    (st : HITState) : HITState :=
  if st.hit_xml = "" then st
  else
    match parsed with
    | Except.ok attribs => { st with hit_attributes := attribs }
    | Except.error msg => { st with hit_attributes := [("note", msg)] }

/-- The value of `RankingResult.results`: the Python `None` class default
(`unset`), a successfully parsed list of integer ranks (`ranks`), or the
exception object assigned by the `except` clause of
`reload_dynamic_fields` (`err`; its contents are never consulted). -/
inductive PyResults where
  | unset : PyResults
  | ranks : List Int → PyResults
  | err : PyResults
deriving DecidableEq

/-- The dynamic state of a `RankingResult` instance: the stored
`raw_result` plus the derived `results` (initially `None`) and `systems`
(initially `0`) fields. -/
structure RRState where
  raw_result : String
  results : PyResults
  systems : Nat
deriving DecidableEq

/-- `s.split(sep)` for the one-character separators used in models.py
(`','` in `system.split(',')` and `raw_result.split(',')`, `'+'` in
`sysA[0].split('+')`): the chunks of `s` between occurrences of `sep`,
keeping empty chunks, exactly as Python's `str.split(sep)`.  Defined by
structural recursion over the character data so that it evaluates inside
the kernel. -/
def splitCharAux (sep : Char) : List Char → List Char → List String
  | [], acc => [String.mk acc.reverse]
  | c :: cs, acc =>
    if c = sep then String.mk acc.reverse :: splitCharAux sep cs []
    else splitCharAux sep cs (c :: acc)

/-- See `splitCharAux`. -/
def splitChar (sep : Char) (s : String) : List String :=
  splitCharAux sep s.data []

/-- `name.replace(',', '+')` (models.py:637,795): comma-to-plus character
replacement, defined over the character data so that it evaluates inside
the kernel. -/
def replaceCommaPlus (s : String) : String :=
  String.mk (s.data.map (fun c => if c = ',' then '+' else c))

/-- Python `int(s)`: optional surrounding whitespace, an optional sign,
then at least one decimal digit; anything else raises `ValueError`. -/
def pyInt (s : String) : Option Int :=
  let t := s.trim
  let (sign, digits) :=
    if t.startsWith "-" then ((-1 : Int), t.drop 1)
    else if t.startsWith "+" then ((1 : Int), t.drop 1)
    else ((1 : Int), t)
  match digits.toNat? with
  | some n => if digits = "" then none else some (sign * n)
  | none => none

/-- `[int(x) for x in l]`: all-or-nothing integer conversion. -/
def parseIntList : List String → Option (List Int)
  | [] => some []
  | s :: rest =>
    match pyInt s, parseIntList rest with
    | some n, some l => some (n :: l)
    | _, _ => none

/-- `self.raw_result.split(',')` followed by integer conversion. -/
def pyParseRanks (raw : String) : Option (List Int) :=
  parseIntList (splitChar ',' raw)

/-- `sum([len(x[1]['system'].split(',')) for x in self.item.translations])`;
`none` models a `KeyError` on a missing `system` attribute. -/
def countSystems : List Translation → Option Nat
  | [] => some 0
  | t :: rest =>
    match List.lookup "system" t.2, countSystems rest with
    | some sys, some n => some ((splitChar ',' sys).length + n)
    | _, _ => none

/-- `RankingResult.reload_dynamic_fields` (models.py:555-568).  Only runs
when `raw_result` is non-empty and not the literal `SKIPPED`; any
exception while parsing the ranks or counting systems is caught and
stored in `results`. -/
def RankingResult.reload_dynamic_fields (item : ItemState) (st : RRState) :
    RRState :=
  if st.raw_result = "" ∨ st.raw_result = "SKIPPED" then st
  else
    match pyParseRanks st.raw_result with
    | none => { st with results := PyResults.err }
    | some rs =>
      match item.translations with
      | none => { st with results := PyResults.err }
      | some ts =>
        match countSystems ts with
        | none => { st with results := PyResults.err }
        | some n => { st with results := PyResults.ranks rs, systems := n }

/-- `results[i]`: `none` models the `IndexError`/`TypeError` raised when
indexing an out-of-range list, the `None` value or the stored exception. -/
def getRank (res : PyResults) (i : Nat) : Option Int :=
  match res with
  | PyResults.ranks l => l[i]?
  | _ => none

/-- The `_systems` list built from `item.translations`
(`translation[1]['system']` per translation, in order); `none` models a
`KeyError` or iterating over a `None` translations field. -/
def systemsOf : List Translation → Option (List String)
  | [] => some []
  | t :: rest =>
    match List.lookup "system" t.2, systemsOf rest with
    | some s, some l => some (s :: l)
    | _, _ => none

/-- `'{}="{}"'.format(k, v)` for one attribute. -/
def attrToString (kv : String × String) : String :=
  kv.1 ++ "=\"" ++ kv.2 ++ "\""

/-- `' '.join(['{}="{}"'.format(k, v) for k, v in attribs])`. -/
def attrsToString (attribs : List (String × String)) : String :=
  String.intercalate " " (attribs.map attrToString)

/-- The template context assembled by `export_to_ranking_xml`
(models.py:576-603): everything the `ranking_result.xml` template sees. -/
structure RankingXmlContext where
  attributes : String
  duration : String
  skipped : Bool
  translations : List (String × Int)
  user : String
deriving DecidableEq

/-- The `(attributes, rank)` pairs collected for the non-skipped branch of
`export_to_ranking_xml`: `self.results[index]` per translation; `none`
models an `IndexError` (too few ranks). -/
def xmlTranslations (res : List Int) : List Translation → Nat →
    Option (List (String × Int))
  | [], _ => some []
  | t :: rest, i =>
    match res[i]?, xmlTranslations res rest (i + 1) with
    | some r, some l => some ((attrsToString t.2, r) :: l)
    | _, _ => none

/-- `RankingResult.export_to_ranking_xml` (models.py:576-603).  `skipped`
is `self.results is None`; a stored exception in `results` makes the
rank subscripting raise (`none`), as does a `None` attribute map. -/
def export_to_ranking_xml (user duration : String) (item : ItemState)
    (st : RRState) : Option RankingXmlContext :=
  match item.attributes with
  | none => none
  | some attribs =>
    let attributes := attrsToString attribs
    match st.results with
    | PyResults.unset =>
        some ⟨attributes, duration, true, [], user⟩
    | PyResults.ranks res =>
        match item.translations with
        | none => none
        | some ts =>
          match xmlTranslations res ts 0 with
          | some trs => some ⟨attributes, duration, false, trs, user⟩
          | none => none
    | PyResults.err => none

/-- `itertools.combinations(l, 2)` in its emission order. -/
def combos2 : List α → List (α × α)
  | [] => []
  | x :: xs => (xs.map (fun y => (x, y))) ++ combos2 xs

/-- `itertools.product(as, bs)` in its emission order. -/
def pyProduct : List String → List String → List (String × String)
  | [], _ => []
  | a :: rest, bs => (bs.map (fun b => (a, b))) ++ pyProduct rest bs

/-- One APF CSV line `'{0},{1},{2}'.format(coder, item, label)` with the
item id `'{0}.{1}.{2}'.format(srcId, a+1, b+1)` and the label
`systemA + verdict + systemB`. -/
def apfLine (user srcId : String) (a b : Nat) (sa v sb : String) : String :=
  user ++ "," ++ srcId ++ "." ++ toString (a + 1) ++ "." ++ toString (b + 1)
    ++ "," ++ sa ++ v ++ sb

/-- The verdict character of `export_to_apf`: the literal three-way
comparison of the two slots' stored ranks. -/
def verdict (ra rb : Int) : String :=
  if ra > rb then ">" else if ra < rb then "<" else "="

/-- The loop body of `export_to_apf` over the slot pairs `(a, b)`:
for each pair, one line per element of the product of the two slots'
comma-split system lists; `none` models an `IndexError` on `_systems`
or `self.results` (fewer than five slots or ranks). -/
def apfPairs (user srcId : String) (systems : List String)
    (ranks : List Int) : List (Nat × Nat) → Option (List String)
  | [] => some []
  | (a, b) :: rest =>
    match systems[a]?, systems[b]?, ranks[a]?, ranks[b]? with
    | some sa, some sb, some ra, some rb =>
      match apfPairs user srcId systems ranks rest with
      | none => none
      | some tail =>
        some (((pyProduct (splitChar ',' sa) (splitChar ',' sb)).map
          (fun q => apfLine user srcId a b q.1 (verdict ra rb) q.2)) ++ tail)
    | _, _, _, _ => none

/-- `RankingResult.export_to_apf` (models.py:847-906).  Returns `None`
(here `none`) when `self.results` is falsy; otherwise iterates over
`combinations(range(5), 2)`.  A stored exception in `results`, a missing
`system` attribute, a `None` source or a missing source `id` raise
(`none`). -/
def export_to_apf (user : String) (item : ItemState) (st : RRState) :
    Option (List String) :=
  match st.results with
  | PyResults.ranks ranks =>
    if ranks.isEmpty then none
    else
      match item.translations with
      | none => none
      | some ts =>
        match systemsOf ts with
        | none => none
        | some systems =>
          match item.source with
          | none => none
          | some src =>
            match List.lookup "id" src.2 with
            | none => none
            | some srcId =>
              apfPairs user srcId systems ranks (combos2 (List.range 5))
  | _ => none

/-- `ISO639_3_TO_NAME_MAPPING` (models.py:38-41); `none` models the
`KeyError` for an unknown language code. -/
def langName (code : String) : Option String :=
  if code = "ina" then some "DA"
  else if code = "ces" then some "Czech"
  else if code = "cze" then some "Czech"
  else none

/-- `if not csv_joint in csv_output: csv_output.append(csv_joint)` —
append with full-row deduplication. -/
def addRow (out : List String) (row : String) : List String :=
  if row ∈ out then out else out ++ [row]

/-- `systems.add((name, rank))` on the modelled system set.  Python's
`set` has no stable order; we model it as an insertion-ordered list
without duplicates, which carries the same membership. -/
def addUnique (l : List (String × Int)) (x : String × Int) :
    List (String × Int) :=
  if x ∈ l then l else l ++ [x]

/-- Building the `(name, rank)` system groups of `export_to_pairwise_csv`
(models.py:635-639): per translation, the comma-to-plus-joined `system`
attribute paired with `self.results[index]`; `none` models a raised
`KeyError`/`IndexError`/`TypeError`. -/
def buildPairSystems (res : PyResults) :
    List Translation → Nat → List (String × Int) →
    Option (List (String × Int))
  | [], _, acc => some acc
  | t :: rest, i, acc =>
    match List.lookup "system" t.2, getRank res i with
    | some name, some r =>
        buildPairSystems res rest (i + 1)
          (addUnique acc (replaceCommaPlus name, r))
    | _, _ => none

/-- One pairwise CSV row:
`base ++ [system1Id, system1rank, system2Id, system2rank, rankingID]`,
comma-joined. -/
def mkPairRow (base : List String) (itemId a : String) (ra : Int)
    (b : String) (rb : Int) : String :=
  String.intercalate "," (base ++ [a, toString ra, b, toString rb, itemId])

/-- The cross-product rows of one `(sysA, sysB)` group pair of
`export_to_pairwise_csv` (models.py:649-660): one deduplicated row per
pair of constituent systems drawn from the two groups. -/
def crossProductRows (base : List String) (itemId : String)
    (sysA sysB : String × Int) (out : List String) : List String :=
  (splitChar '+' sysA.1).foldl (fun o a =>
    (splitChar '+' sysB.1).foldl (fun o b =>
      addRow o (mkPairRow base itemId a sysA.2 b sysB.2)) o) out

/-- The intra-multi-system rows of `export_to_pairwise_csv`
(models.py:664-690) for one group: when the group joins more than one
constituent system, one deduplicated row per pair of constituents, both
sides carrying the group's shared rank. -/
def intraRows (base : List String) (itemId : String) (g : String × Int)
    (out : List String) : List String :=
  if (splitChar '+' g.1).length > 1 then
    (combos2 (splitChar '+' g.1)).foldl (fun o p =>
      addRow o (mkPairRow base itemId p.1 g.2 p.2 g.2)) out
  else out

/-- The body of the `combinations(systems, 2)` loop of
`export_to_pairwise_csv` (models.py:643-690) for one pair of groups:
the cross-product rows, then the intra-group tie rows for each side. -/
def crossRows (base : List String) (itemId : String)
    (sysA sysB : String × Int) (out : List String) : List String :=
  intraRows base itemId sysB
    (intraRows base itemId sysA (crossProductRows base itemId sysA sysB out))

/-- `RankingResult.export_to_pairwise_csv` (models.py:606-692).  Returns
`None` when `self.results is None`; otherwise builds the deduplicated
rows over all unordered pairs of system groups.  A missing language
attribute or unknown code raises; a missing source `id` only raises when
at least one row is actually joined (otherwise the dangling `-1` sentinel
is never stringified), so a result with fewer than two system groups
yields the empty row list even then. -/
def export_to_pairwise_csv (user : String)
    (hitAttrs : List (String × String)) (itemId : String)
    (item : ItemState) (st : RRState) : Option (List String) :=
  match st.results with
  | PyResults.unset => none
  | _ =>
    match List.lookup "source-language" hitAttrs,
        List.lookup "target-language" hitAttrs with
    | some sl, some tl =>
      match langName sl, langName tl with
      | some srcName, some trgName =>
        match item.translations with
        | none => none
        | some ts =>
          match buildPairSystems st.results ts 0 [] with
          | none => none
          | some groups =>
            let combos := combos2 groups
            if combos.isEmpty then some []
            else
              match item.source.bind (fun s => List.lookup "id" s.2) with
              | none => none
              | some srcIndex =>
                let base := [srcName, trgName, srcIndex, srcIndex, user]
                some (combos.foldl
                  (fun out p => crossRows base itemId p.1 p.2 out) [])
      | _, _ => none
    | _, _ => none

/-- The preliminaries of `RankingResult.export_to_csv`
(models.py:743-780): the `_systems` list and the six `base_values`
columns `[srclang, trglang, srcIndex, documentId(-1), segmentId, judgeId]`.
All of these are computed (and can raise, `none`) before the method
touches `self.results`. -/
def csvBase (user : String) (hitAttrs : List (String × String))
    (item : ItemState) : Option (List String × List String) :=
  (List.lookup "source-language" hitAttrs).bind fun sl =>
  (List.lookup "target-language" hitAttrs).bind fun tl =>
  (langName sl).bind fun srcName =>
  (langName tl).bind fun trgName =>
  item.translations.bind fun ts =>
  (systemsOf ts).bind fun systems =>
  item.source.bind fun src =>
  (List.lookup "id" src.2).map fun srcIndex =>
    ([srcName, trgName, srcIndex, "-1", srcIndex, user], systems)

/-- The `_system_names` / `_system_ranks` loop of `export_to_csv`
(models.py:786-796): per system either the comma-to-plus-joined name with
its rank, or (with `expand_multi_systems`) one entry per constituent
system sharing the stringified rank.  `none` models the `IndexError` /
`TypeError` of `self.results[_result_index]`. -/
def buildNamesRanks (expand : Bool) (res : PyResults) :
    List String → Nat → Option (List String × List String)
  | [], _ => some ([], [])
  | sys :: rest, i =>
    match getRank res i with
    | none => none
    | some r =>
      match buildNamesRanks expand res rest (i + 1) with
      | none => none
      | some (ns, rs) =>
        if expand then
          let locals := splitChar ',' sys
          some (locals ++ ns,
            List.replicate locals.length (toString r) ++ rs)
        else
          some (replaceCommaPlus sys :: ns, toString r :: rs)

/-- The placeholder padding of `export_to_csv` (models.py:798-804):
when the name count is not a multiple of five, append `PLACEHOLDER`
names and `-1` ranks up to the next multiple of five. -/
def pad5 (names ranks : List String) : List String × List String :=
  if names.length % 5 > 0 then
    let missing := 5 - names.length % 5
    (names ++ List.replicate missing "PLACEHOLDER",
     ranks ++ List.replicate missing "-1")
  else (names, ranks)

/-- The blocks visited by `for _base_index in range(len(names))[::5]`
(models.py:807-815): successive windows of (at most) five names and the
parallel rank window.  Written with explicit five-element patterns (rather
than `take 5`/`drop 5`) so the recursion is structural and evaluates
inside the kernel; the two formulations agree. -/
def rowBlocks : List String → List String → List (List String × List String)
  | [], _ => []
  | n1 :: n2 :: n3 :: n4 :: n5 :: ns, r =>
      ([n1, n2, n3, n4, n5], r.take 5) :: rowBlocks ns (r.drop 5)
  | l, r => [(l, r.take 5)]

/-- The ten `(number, systemId)` cells of one CSV row: `'-1'` then the
system name, per slot of the block. -/
def slotCells : List String → List String
  | [] => []
  | n :: ns => "-1" :: n :: slotCells ns

/-- `if not self.results` (models.py:783): Python falsiness of the
`results` field — `None` and the empty list are falsy, a stored
exception object is truthy. -/
def resultsFalsy (res : PyResults) : Bool :=
  match res with
  | PyResults.unset => true
  | PyResults.ranks l => l.isEmpty
  | PyResults.err => false

/-- The state after the `if not self.results:
self.results = [-1] * len(_systems)` default substitution
(models.py:782-784). -/
def csvDefaulted (systems : List String) (st : RRState) : RRState :=
  if resultsFalsy st.results then
    { st with results := PyResults.ranks (List.replicate systems.length (-1)) }
  else st

/-- `RankingResult.export_to_csv` (models.py:739-843), at CSV-cell level
(the real method comma-joins each row and newline-joins the rows).
When `self.results` is falsy it is overwritten with `[-1] * len(_systems)`
before the rows are built, so the method returns the possibly-updated
`RRState` alongside the rows; a stored exception in `results` makes the
rank subscripting raise (`none`) unless there are no systems at all. -/
def export_to_csv (expand : Bool) (user : String)
    (hitAttrs : List (String × String)) (item : ItemState) (st : RRState) :
    Option (RRState × List (List String)) :=
  (csvBase user hitAttrs item).bind fun bs =>
    (buildNamesRanks expand (csvDefaulted bs.2 st).results bs.2 0).map fun nr =>
      (csvDefaulted bs.2 st,
        (rowBlocks (pad5 nr.1 nr.2).1 (pad5 nr.1 nr.2).2).map
          (fun blk => bs.1 ++ slotCells blk.1 ++ blk.2))

/-- The value of `_latest_values[0]` in
`TimedKeyValueData.update_status_if_changed`: the most recent stored
value for `key`.  The log is modelled oldest-first, so `auto_now_add`
order is list order and `order_by('date_and_time').reverse()[0]` is the
last matching row. -/
def lastValueFor (db : List (String × String)) (key : String) :
    Option String :=
  (((db.filter (fun r => r.1 == key)).map Prod.snd).reverse).head?

/-- `TimedKeyValueData.update_status_if_changed` (models.py:1060-1068):
append a `(key, value)` row exactly when there is no prior row for `key`
or the most recent one holds a different value. -/
def update_status_if_changed (db : List (String × String))
    (key value : String) : List (String × String) :=
  match lastValueFor db key with
  | none => db ++ [(key, value)]
  | some v => if v ≠ value then db ++ [(key, value)] else db

/-- The APF lines `export_to_apf` emits for one slot pair `(a, b)`: one
line per element of the product of the two slots' comma-split system
lists, with the verdict comparing the two slots' ranks (the body of the
`for _systemA, _systemB in product(...)` loop, models.py:893-904). -/
def apfBlock (user srcId : String) (a b : Nat) (sA sB : String)
    (ra rb : Int) : List String :=
  (pyProduct (splitChar ',' sA) (splitChar ',' sB)).map
    (fun q => apfLine user srcId a b q.1 (verdict ra rb) q.2)

/-! ### Concrete fixtures -/

/-- HIT attribute map of a parsed `ina2ces` batch. -/
def hitAttrsEx : List (String × String) :=
  [("source-language", "ina"), ("target-language", "ces")]

/-- Five single-system candidate slots carrying systems A,B,C,D,E. -/
def transABCDE : List Translation :=
  [("translation A", [("system", "A")]), ("translation B", [("system", "B")]),
   ("translation C", [("system", "C")]), ("translation D", [("system", "D")]),
   ("translation E", [("system", "E")])]

/-- A fully parsed item whose source carries id "3" and whose five
candidate slots carry the single systems A,B,C,D,E in order. -/
def itemABCDE : ItemState :=
  { item_xml := "<seg id=\"3\"/>"
    attributes := some [("id", "3")]
    source := some ("source text", [("id", "3")])
    reference := none
    translations := some transABCDE }

/-- A result ranking the five slots `[1,2,3,4,5]`. -/
def stRanks12345 : RRState :=
  { raw_result := "1,2,3,4,5", results := PyResults.ranks [1, 2, 3, 4, 5],
    systems := 5 }

/-- A freshly loaded skipped result. -/
def stSkippedEx : RRState :=
  { raw_result := "SKIPPED", results := PyResults.unset, systems := 0 }

/-- An item with a single candidate slot shared by the tied systems A,B. -/
def itemMulti : ItemState :=
  { item_xml := "<seg id=\"3\"/>"
    attributes := some [("id", "3")]
    source := some ("source text", [("id", "3")])
    reference := none
    translations := some [("translation AB", [("system", "A,B")])] }

/-- A result ranking the single multi-system slot of `itemMulti`. -/
def stRank1 : RRState :=
  { raw_result := "1", results := PyResults.ranks [1], systems := 2 }

/-- An item with a tied multi-system slot A,B and a single-system slot C. -/
def itemTwoGroups : ItemState :=
  { item_xml := "<seg id=\"3\"/>"
    attributes := some [("id", "3")]
    source := some ("source text", [("id", "3")])
    reference := none
    translations := some [("translation AB", [("system", "A,B")]),
      ("translation C", [("system", "C")])] }

/-- A result ranking `itemTwoGroups`'s two slots `[1,2]`. -/
def stRanks12 : RRState :=
  { raw_result := "1,2", results := PyResults.ranks [1, 2], systems := 3 }

/-! ### Helper lemmas -/

theorem exists_eq_of_length_five {α : Type} (l : List α) (h : l.length = 5) :
    ∃ a b c d e, l = [a, b, c, d, e] := by
  rcases l with _ | ⟨a, l⟩
  · simp at h
  rcases l with _ | ⟨b, l⟩
  · simp at h
  rcases l with _ | ⟨c, l⟩
  · simp at h
  rcases l with _ | ⟨d, l⟩
  · simp at h
  rcases l with _ | ⟨e, l⟩
  · simp at h
  rcases l with _ | ⟨f, l⟩
  · exact ⟨a, b, c, d, e, rfl⟩
  · simp at h

theorem systemsOf_length : ∀ {ts : List Translation} {l : List String},
    systemsOf ts = some l → l.length = ts.length := by
  intro ts
  induction ts with
  | nil => intro l h; simp [systemsOf] at h; simp [← h]
  | cons t rest ih =>
    intro l h
    simp only [systemsOf] at h
    rcases h1 : List.lookup "system" t.2 with _ | s <;> rw [h1] at h
    · exact absurd h (by simp)
    · rcases h2 : systemsOf rest with _ | l' <;> rw [h2] at h
      · exact absurd h (by simp)
      · cases h
        simp [ih h2]

theorem pyProduct_length : ∀ (as bs : List String),
    (pyProduct as bs).length = as.length * bs.length := by
  intro as bs
  induction as with
  | nil => simp [pyProduct]
  | cons a rest ih => simp [pyProduct, ih, Nat.succ_mul, Nat.add_comm]

theorem pyProduct_mem {as bs : List String} {a b : String}
    (ha : a ∈ as) (hb : b ∈ bs) : (a, b) ∈ pyProduct as bs := by
  induction as with
  | nil => cases ha
  | cons x rest ih =>
    rcases List.mem_cons.mp ha with rfl | ha'
    · exact List.mem_append_left _ (List.mem_map.mpr ⟨b, hb, rfl⟩)
    · exact List.mem_append_right _ (ih ha')

theorem combos2_length_ge {α : Type} {l : List α} {p : α × α}
    (h : p ∈ combos2 l) : 2 ≤ l.length := by
  induction l with
  | nil => cases h
  | cons x xs ih =>
    rcases List.mem_append.mp h with h1 | h2
    · rcases List.mem_map.mp h1 with ⟨y, hy, _⟩
      cases xs with
      | nil => cases hy
      | cons z zs => simp
    · have := ih h2
      simp only [List.length_cons]
      omega

theorem combos2_cover {α : Type} {l : List α} {g : α}
    (hlen : 2 ≤ l.length) (hg : g ∈ l) :
    ∃ p ∈ combos2 l, p.1 = g ∨ p.2 = g := by
  cases l with
  | nil => cases hg
  | cons x xs =>
    rcases List.mem_cons.mp hg with rfl | hg'
    · cases xs with
      | nil => simp at hlen
      | cons y ys =>
        refine ⟨(g, y), ?_, Or.inl rfl⟩
        exact List.mem_append_left _ (List.mem_map.mpr ⟨y, List.mem_cons_self _ _, rfl⟩)
    · refine ⟨(x, g), ?_, Or.inr rfl⟩
      exact List.mem_append_left _ (List.mem_map.mpr ⟨g, hg', rfl⟩)

theorem mem_addRow_self (out : List String) (r : String) : r ∈ addRow out r := by
  unfold addRow
  split
  · assumption
  · exact List.mem_append_right _ (List.mem_singleton.mpr rfl)

theorem mem_addRow_of_mem {out : List String} {s : String} (r : String)
    (h : s ∈ out) : s ∈ addRow out r := by
  unfold addRow
  split
  · exact h
  · exact List.mem_append_left _ h

theorem addRow_nodup {out : List String} (r : String) (h : out.Nodup) :
    (addRow out r).Nodup := by
  unfold addRow
  split
  · exact h
  · rename_i hmem
    rw [List.nodup_append]
    exact ⟨h, List.nodup_singleton r, by
      intro a ha hb
      rw [List.mem_singleton] at hb
      exact hmem (hb ▸ ha)⟩

theorem foldl_mem_mono {β : Type} {step : List String → β → List String}
    (hstep : ∀ o x s, s ∈ o → s ∈ step o x) :
    ∀ (l : List β) {o : List String} {s : String},
      s ∈ o → s ∈ l.foldl step o := by
  intro l
  induction l with
  | nil => intro o s h; exact h
  | cons x xs ih => intro o s h; exact ih (hstep o x s h)

theorem foldl_mem_of_mem_step {β : Type} {step : List String → β → List String}
    (hstep : ∀ o x s, s ∈ o → s ∈ step o x) {q : β} {row : String}
    (hq : ∀ o, row ∈ step o q) :
    ∀ (l : List β) (o : List String), q ∈ l → row ∈ l.foldl step o := by
  intro l
  induction l with
  | nil => intro o h; cases h
  | cons x xs ih =>
    intro o h
    rcases List.mem_cons.mp h with rfl | h'
    · exact foldl_mem_mono hstep xs (hq o)
    · exact ih _ h'

theorem foldl_nodup {β : Type} {step : List String → β → List String}
    (hstep : ∀ o x, o.Nodup → (step o x).Nodup) :
    ∀ (l : List β) {o : List String}, o.Nodup → (l.foldl step o).Nodup := by
  intro l
  induction l with
  | nil => intro o h; exact h
  | cons x xs ih => intro o h; exact ih (hstep o x h)

theorem foldl_addRow_adds {β : Type} (f : β → String) :
    ∀ (l : List β) (o : List String) (x : β), x ∈ l →
      f x ∈ l.foldl (fun o y => addRow o (f y)) o := by
  intro l
  induction l with
  | nil => intro o x h; cases h
  | cons y ys ih =>
    intro o x h
    rcases List.mem_cons.mp h with rfl | h'
    · exact foldl_mem_mono (fun o x s h => mem_addRow_of_mem _ h) ys
        (mem_addRow_self o (f x))
    · exact ih _ _ h'

theorem crossProductRows_preserve {base : List String} {itemId : String}
    {A B : String × Int} {out : List String} {s : String} (h : s ∈ out) :
    s ∈ crossProductRows base itemId A B out :=
  foldl_mem_mono (fun o x s h =>
    foldl_mem_mono (fun o y s h' => mem_addRow_of_mem _ h') _ h) _ h

theorem crossProductRows_nodup {base : List String} {itemId : String}
    {A B : String × Int} {out : List String} (h : out.Nodup) :
    (crossProductRows base itemId A B out).Nodup :=
  foldl_nodup (fun o x ho =>
    foldl_nodup (fun o y ho' => addRow_nodup _ ho') _ ho) _ h

theorem intraRows_preserve {base : List String} {itemId : String}
    {g : String × Int} {out : List String} {s : String} (h : s ∈ out) :
    s ∈ intraRows base itemId g out := by
  unfold intraRows
  split
  · exact foldl_mem_mono (fun o x s h => mem_addRow_of_mem _ h) _ h
  · exact h

theorem intraRows_nodup {base : List String} {itemId : String}
    {g : String × Int} {out : List String} (h : out.Nodup) :
    (intraRows base itemId g out).Nodup := by
  unfold intraRows
  split
  · exact foldl_nodup (fun o x ho => addRow_nodup _ ho) _ h
  · exact h

theorem intraRows_adds {base : List String} {itemId : String}
    {g : String × Int} {out : List String} {p : String × String}
    (hp : p ∈ combos2 (splitChar '+' g.1)) :
    mkPairRow base itemId p.1 g.2 p.2 g.2 ∈ intraRows base itemId g out := by
  unfold intraRows
  rcases Nat.lt_or_ge 1 (splitChar '+' g.1).length with hlt | hge
  · rw [if_pos hlt]
    exact foldl_addRow_adds (fun q => mkPairRow base itemId q.1 g.2 q.2 g.2) _ _ _ hp
  · exact absurd (combos2_length_ge hp) (by omega)

theorem crossRows_preserve {base : List String} {itemId : String}
    {A B : String × Int} {out : List String} {s : String} (h : s ∈ out) :
    s ∈ crossRows base itemId A B out :=
  intraRows_preserve (intraRows_preserve (crossProductRows_preserve h))

theorem crossRows_nodup {base : List String} {itemId : String}
    {A B : String × Int} {out : List String} (h : out.Nodup) :
    (crossRows base itemId A B out).Nodup :=
  intraRows_nodup (intraRows_nodup (crossProductRows_nodup h))

theorem crossRows_intra_left {base : List String} {itemId : String}
    {A B : String × Int} {out : List String} {p : String × String}
    (hp : p ∈ combos2 (splitChar '+' A.1)) :
    mkPairRow base itemId p.1 A.2 p.2 A.2 ∈ crossRows base itemId A B out :=
  intraRows_preserve (intraRows_adds hp)

theorem crossRows_intra_right {base : List String} {itemId : String}
    {A B : String × Int} {out : List String} {p : String × String}
    (hp : p ∈ combos2 (splitChar '+' B.1)) :
    mkPairRow base itemId p.1 B.2 p.2 B.2 ∈ crossRows base itemId A B out :=
  intraRows_adds hp

theorem rowBlocks_length : ∀ (n : Nat) (l r : List String), l.length = n →
    (rowBlocks l r).length = (n + 4) / 5 := by
  intro n
  induction n using Nat.strong_induction_on with
  | _ n ih =>
    intro l r hl
    rcases l with _ | ⟨a, _ | ⟨b, _ | ⟨c, _ | ⟨d, _ | ⟨e, rest⟩⟩⟩⟩⟩ <;>
      simp only [List.length_nil, List.length_cons] at hl <;> subst hl
    · simp [rowBlocks]
    · simp [rowBlocks]
    · simp [rowBlocks]
    · simp [rowBlocks]
    · simp [rowBlocks]
    · rw [show rowBlocks (a :: b :: c :: d :: e :: rest) r =
          ([a, b, c, d, e], r.take 5) :: rowBlocks rest (r.drop 5) from rfl,
        List.length_cons, ih rest.length (by omega) _ (r.drop 5) rfl]
      omega

theorem rowBlocks_append : ∀ (n : Nat) (l1 r1 l2 r2 : List String),
    l1.length = n → n % 5 = 0 → r1.length = n →
    rowBlocks (l1 ++ l2) (r1 ++ r2) = rowBlocks l1 r1 ++ rowBlocks l2 r2 := by
  intro n
  induction n using Nat.strong_induction_on with
  | _ n ih =>
    intro l1 r1 l2 r2 hl hm hr
    rcases l1 with _ | ⟨a, _ | ⟨b, _ | ⟨c, _ | ⟨d, _ | ⟨e, rest⟩⟩⟩⟩⟩ <;>
      simp only [List.length_nil, List.length_cons] at hl
    · have : r1 = [] := List.eq_nil_of_length_eq_zero (by omega)
      subst this
      simp [rowBlocks]
    · exact absurd hm (by omega)
    · exact absurd hm (by omega)
    · exact absurd hm (by omega)
    · exact absurd hm (by omega)
    · have hr5 : 5 ≤ r1.length := by omega
      have hstep : rowBlocks ((a :: b :: c :: d :: e :: rest) ++ l2)
          (r1 ++ r2) = ([a, b, c, d, e], (r1 ++ r2).take 5) ::
            rowBlocks (rest ++ l2) ((r1 ++ r2).drop 5) := rfl
      rw [hstep, List.take_append_of_le_length hr5,
        List.drop_append_of_le_length hr5,
        ih (n - 5) (by omega) rest (r1.drop 5) l2 r2 (by omega) (by omega)
          (by simp only [List.length_drop]; omega)]
      rw [show rowBlocks (a :: b :: c :: d :: e :: rest) r1 =
        ([a, b, c, d, e], r1.take 5) :: rowBlocks rest (r1.drop 5) from rfl]
      simp

theorem rowBlocks_exact5 (l r : List String) (hl : l.length = 5)
    (hr : r.length = 5) : rowBlocks l r = [(l, r)] := by
  obtain ⟨a, b, c, d, e, rfl⟩ := exists_eq_of_length_five l hl
  rw [show rowBlocks [a, b, c, d, e] r =
      ([a, b, c, d, e], r.take 5) :: rowBlocks [] (r.drop 5) from rfl,
    List.take_of_length_le (le_of_eq hr)]
  rfl

theorem rowBlocks_replicate : ∀ (n : Nat) (l : List String),
    l.length = n → n % 5 = 0 →
    ∀ p ∈ rowBlocks l (List.replicate n "-1"),
      p.1.length = 5 ∧ p.2 = List.replicate 5 "-1" := by
  intro n
  induction n using Nat.strong_induction_on with
  | _ n ih =>
    intro l hl hm p hp
    rcases l with _ | ⟨a, _ | ⟨b, _ | ⟨c, _ | ⟨d, _ | ⟨e, rest⟩⟩⟩⟩⟩ <;>
      simp only [List.length_nil, List.length_cons] at hl
    · simp [rowBlocks] at hp
    · exact absurd hm (by omega)
    · exact absurd hm (by omega)
    · exact absurd hm (by omega)
    · exact absurd hm (by omega)
    · have h5 : 5 ≤ n := by omega
      rw [show rowBlocks (a :: b :: c :: d :: e :: rest)
          (List.replicate n "-1") =
          ([a, b, c, d, e], (List.replicate n "-1").take 5) ::
            rowBlocks rest ((List.replicate n "-1").drop 5) from rfl] at hp
      rcases List.mem_cons.mp hp with rfl | hp'
      · exact ⟨rfl, by rw [List.take_replicate, Nat.min_eq_left h5]⟩
      · rw [List.drop_replicate] at hp'
        exact ih (n - 5) (by omega) rest (by omega) (by omega) p hp'

theorem slotCells_length : ∀ (l : List String),
    (slotCells l).length = 2 * l.length := by
  intro l
  induction l with
  | nil => simp [slotCells]
  | cons x xs ih => simp [slotCells, ih]; omega

theorem buildNamesRanks_false_lengths :
    ∀ (sys : List String) (i : Nat) (res : PyResults) (ns rs : List String),
      buildNamesRanks false res sys i = some (ns, rs) →
      ns.length = sys.length ∧ rs.length = sys.length := by
  intro sys
  induction sys with
  | nil =>
    intro i res ns rs h
    simp only [buildNamesRanks, Option.some.injEq, Prod.mk.injEq] at h
    obtain ⟨h1, h2⟩ := h
    subst h1
    subst h2
    simp
  | cons s rest ih =>
    intro i res ns rs h
    simp only [buildNamesRanks] at h
    rcases h1 : getRank res i with _ | r <;> rw [h1] at h
    · exact absurd h (by simp)
    · rcases h2 : buildNamesRanks false res rest (i + 1) with _ | ⟨ns', rs'⟩ <;>
        rw [h2] at h
      · exact absurd h (by simp)
      · simp only [Bool.false_eq_true, if_false, Option.some.injEq, Prod.mk.injEq] at h
        obtain ⟨hns, hrs⟩ := h
        have := ih (i + 1) res ns' rs' h2
        subst hns hrs
        simp [this.1, this.2]

theorem buildNamesRanks_neg1 :
    ∀ (sys : List String) (i L : Nat), i + sys.length ≤ L →
      buildNamesRanks false (PyResults.ranks (List.replicate L (-1))) sys i =
        some (sys.map replaceCommaPlus,
          List.replicate sys.length "-1") := by
  intro sys
  induction sys with
  | nil => intro i L h; simp [buildNamesRanks]
  | cons s rest ih =>
    intro i L h
    simp only [List.length_cons] at h
    have hi : i < L := by omega
    simp only [buildNamesRanks, getRank, List.getElem?_replicate, if_pos hi,
      ih (i + 1) L (by omega)]
    simp [List.replicate_succ]
    decide

theorem pad5_fst_length (names ranks : List String) :
    (pad5 names ranks).1.length = names.length +
      (if names.length % 5 > 0 then 5 - names.length % 5 else 0) := by
  unfold pad5
  by_cases hm : names.length % 5 > 0 <;> simp [hm]

theorem pad5_replicate (names : List String) :
    (pad5 names (List.replicate names.length "-1")).2 =
      List.replicate (pad5 names (List.replicate names.length "-1")).1.length
        "-1" := by
  unfold pad5
  by_cases hm : names.length % 5 > 0
  · rw [if_pos hm]
    show List.replicate names.length "-1" ++
        List.replicate (5 - names.length % 5) "-1" =
      List.replicate (names ++
        List.replicate (5 - names.length % 5) "PLACEHOLDER").length "-1"
    rw [← List.replicate_add, List.length_append, List.length_replicate]
  · rw [if_neg hm]

theorem csvRows_length (base names ranks : List String) :
    ((rowBlocks (pad5 names ranks).1 (pad5 names ranks).2).map
      (fun blk => base ++ slotCells blk.1 ++ blk.2)).length =
    (names.length + 4) / 5 := by
  rw [List.length_map, rowBlocks_length (pad5 names ranks).1.length _ _ rfl,
    pad5_fst_length]
  by_cases hm : names.length % 5 > 0
  · rw [if_pos hm]
    omega
  · rw [if_neg hm]

theorem csvBase_inv {u : String} {ha : List (String × String)}
    {item : ItemState} {base : List String} {systems : List String}
    {ts : List Translation}
    (h : csvBase u ha item = some (base, systems))
    (hts : item.translations = some ts) :
    systemsOf ts = some systems ∧
      ∃ sn tn si, base = [sn, tn, si, "-1", si, u] := by
  unfold csvBase at h
  simp only [Option.bind_eq_some, Option.map_eq_some'] at h
  obtain ⟨sl, h1, tl, h2, sn, h3, tn, h4, ts', h5, sys, h6, src, h7, si, h8, h9⟩ := h
  rw [hts] at h5
  cases h5
  cases h9
  exact ⟨h6, sn, tn, si, rfl⟩

theorem mem_apfBlock {user srcId : String} {a b : Nat} {sA sB : String}
    {ra rb : Int} {sa sb : String} (hsa : sa ∈ splitChar ',' sA)
    (hsb : sb ∈ splitChar ',' sB) :
    apfLine user srcId a b sa (verdict ra rb) sb ∈
      apfBlock user srcId a b sA sB ra rb :=
  List.mem_map.mpr ⟨(sa, sb), pyProduct_mem hsa hsb, rfl⟩

theorem combos2_cons2_ne_empty {α : Type} (a b : α) (l : List α) :
    (combos2 (a :: b :: l)).isEmpty = false := by
  simp [combos2]

/-! ### Claim theorems -/

/-- C1 (counterexample): on the claimed fixture — user "alice", source id
"3", systems A..E, ranks `[1,2,3,4,5]` — the APF line `export_to_apf`
emits for the slot pair (0,1) is `alice,3.1.2,A<B`, not the claimed
`alice,3.1.2,A>B`: the operator is the literal comparison of the stored
ranks, and rank 1 < rank 2. -/
theorem c1_counterexample :
    (export_to_apf "alice" itemABCDE stRanks12345).map List.head? =
      some (some "alice,3.1.2,A<B") ∧
    (export_to_apf "alice" itemABCDE stRanks12345).map
      (fun l => l.contains "alice,3.1.2,A>B") = some false := by
  constructor
  · rfl
  · rfl

/-- C1 (amended): for the non-skipped result ranked `[1,2,3,4,5]` by user
"alice" on the item with source id "3" and single systems A,B,C,D,E in its
five slots, `export_to_apf` emits for slot pair (0,1) the APF line
`alice,3.1.2,A<B` — the operator is the literal three-way comparison of
the two slots' stored ranks (`<` because rank 1 < rank 2), not the
"better-than" direction the claim assumed. -/
theorem c1_amended :
    export_to_apf "alice" itemABCDE stRanks12345 =
      some ["alice,3.1.2,A<B", "alice,3.1.3,A<C", "alice,3.1.4,A<D",
        "alice,3.1.5,A<E", "alice,3.2.3,B<C", "alice,3.2.4,B<D",
        "alice,3.2.5,B<E", "alice,3.3.4,C<D", "alice,3.3.5,C<E",
        "alice,3.4.5,D<E"] := by
  rfl

/-- C2: for a result whose `raw_result` is the literal `SKIPPED` and whose
derived rank list is still the initial `None`, `reload_dynamic_fields`
leaves the rank list absent, `export_to_ranking_xml` renders the result
with the skipped flag true, and `export_to_pairwise_csv` and
`export_to_apf` both return none. -/
theorem c2_skipped_results (item : ItemState) (st : RRState)
    (user duration itemId : String) (hitAttrs : List (String × String))
    (attribs : List (String × String))
    (hraw : st.raw_result = "SKIPPED") (hres : st.results = PyResults.unset) :
    (RankingResult.reload_dynamic_fields item st).results = PyResults.unset ∧
    (item.attributes = some attribs →
      export_to_ranking_xml user duration item st =
        some ⟨attrsToString attribs, duration, true, [], user⟩) ∧
    export_to_pairwise_csv user hitAttrs itemId item st = none ∧
    export_to_apf user item st = none := by
  refine ⟨?_, ?_, ?_, ?_⟩
  · unfold RankingResult.reload_dynamic_fields
    rw [if_pos (Or.inr hraw)]
    exact hres
  · intro ha
    unfold export_to_ranking_xml
    rw [ha, hres]
  · unfold export_to_pairwise_csv
    rw [hres]
  · unfold export_to_apf
    rw [hres]

/-- C2 (witness): the skipped fixture hits every conjunct of
`c2_skipped_results`. -/
theorem c2_witness :
    (RankingResult.reload_dynamic_fields itemABCDE stSkippedEx).results =
      PyResults.unset ∧
    export_to_ranking_xml "alice" "0:00:10" itemABCDE stSkippedEx =
      some ⟨attrsToString [("id", "3")], "0:00:10", true, [], "alice"⟩ ∧
    export_to_pairwise_csv "alice" hitAttrsEx "7" itemABCDE stSkippedEx =
      none ∧
    export_to_apf "alice" itemABCDE stSkippedEx = none := by
  have h := c2_skipped_results itemABCDE stSkippedEx "alice" "0:00:10" "7"
    hitAttrsEx [("id", "3")] rfl rfl
  exact ⟨h.1, h.2.1 rfl, h.2.2.1, h.2.2.2⟩

/-- C7: parse failures never raise here (the reload functions are total);
a failing parse of a non-empty `hit_xml` replaces the batch attribute map
with the single diagnostic entry `note ↦ parser message`, and a failing
parse of a non-empty `item_xml` nulls the item's source, reference and
translations. -/
theorem c7_parse_error_diagnostic (msg : String) (stH : HITState)
    (stI : ItemState) (hH : stH.hit_xml ≠ "") (hI : stI.item_xml ≠ "") :
    HIT.reload_dynamic_fields (Except.error msg) stH =
      { stH with hit_attributes := [("note", msg)] } ∧
    (RankingTask.reload_dynamic_fields (Except.error msg) stI).source = none ∧
    (RankingTask.reload_dynamic_fields (Except.error msg) stI).reference = none ∧
    (RankingTask.reload_dynamic_fields (Except.error msg) stI).translations = none := by
  unfold HIT.reload_dynamic_fields RankingTask.reload_dynamic_fields
  rw [if_neg hH, if_neg hI]
  exact ⟨rfl, rfl, rfl, rfl⟩

/-- C7 (witness): a concrete malformed batch and item. -/
theorem c7_witness :
    HIT.reload_dynamic_fields (Except.error "not well-formed: line 1")
      ⟨"<set", [("source-language", "ina")]⟩ =
      ⟨"<set", [("note", "not well-formed: line 1")]⟩ ∧
    (RankingTask.reload_dynamic_fields (Except.error "not well-formed: line 1")
      ⟨"<seg", some [("id", "3")], some ("old", []), none,
        some transABCDE⟩).translations = none := by
  have h := c7_parse_error_diagnostic "not well-formed: line 1"
    ⟨"<set", [("source-language", "ina")]⟩
    ⟨"<seg", some [("id", "3")], some ("old", []), none, some transABCDE⟩
    (by decide) (by decide)
  exact ⟨h.1, h.2.2.2⟩

/-- C8 (amended): both `reload_dynamic_fields` are idempotent — calling
twice with the same stored XML and parse outcome equals calling once —
and on a successful parse of non-empty XML the HIT attribute map and the
item's attributes and translations are fully recomputed; but an item's
`source`/`reference` are only overwritten when present in the new XML,
its attribute map is untouched on a parse error, and empty XML leaves
every field as it was — those fields can retain earlier values. -/
theorem c8_reload_idempotent (pH : Except String (List (String × String)))
    (stH : HITState) (pI : Except String ItemXML) (stI : ItemState) :
    HIT.reload_dynamic_fields pH (HIT.reload_dynamic_fields pH stH) =
      HIT.reload_dynamic_fields pH stH ∧
    RankingTask.reload_dynamic_fields pI
      (RankingTask.reload_dynamic_fields pI stI) =
      RankingTask.reload_dynamic_fields pI stI ∧
    (∀ a, stH.hit_xml ≠ "" → pH = Except.ok a →
      (HIT.reload_dynamic_fields pH stH).hit_attributes = a) ∧
    (∀ x, stI.item_xml ≠ "" → pI = Except.ok x →
      (RankingTask.reload_dynamic_fields pI stI).attributes = some x.attrib ∧
      (RankingTask.reload_dynamic_fields pI stI).translations =
        some x.translations) := by
  refine ⟨?_, ?_, ?_, ?_⟩
  · by_cases hH : stH.hit_xml = ""
    · simp [HIT.reload_dynamic_fields, hH]
    · cases pH <;> simp [HIT.reload_dynamic_fields, hH]
  · by_cases hI : stI.item_xml = ""
    · simp [RankingTask.reload_dynamic_fields, hI]
    · cases pI with
      | error e => simp [RankingTask.reload_dynamic_fields, hI]
      | ok x =>
        cases hs : x.source <;> cases hr : x.reference <;>
          simp [RankingTask.reload_dynamic_fields, hI, hs, hr]
  · intro a hH hp
    subst hp
    simp [HIT.reload_dynamic_fields, hH]
  · intro x hI hp
    subst hp
    cases hs : x.source <;> cases hr : x.reference <;>
      simp [RankingTask.reload_dynamic_fields, hI, hs, hr]

/-- C8 (witness): idempotence and full recomputation on a concrete batch
and item. -/
theorem c8_witness :
    HIT.reload_dynamic_fields (Except.ok [("source-language", "ina")])
      (HIT.reload_dynamic_fields (Except.ok [("source-language", "ina")])
        ⟨"<set>", []⟩) =
      HIT.reload_dynamic_fields (Except.ok [("source-language", "ina")])
        ⟨"<set>", []⟩ ∧
    (HIT.reload_dynamic_fields (Except.ok [("source-language", "ina")])
      ⟨"<set>", []⟩).hit_attributes = [("source-language", "ina")] := by
  have h := c8_reload_idempotent (Except.ok [("source-language", "ina")])
    ⟨"<set>", []⟩ (Except.ok ⟨[("id", "3")], none, none, transABCDE⟩)
    ⟨"<seg/>", none, none, none, none⟩
  exact ⟨h.1, h.2.2.1 _ (by decide) rfl⟩

/-- C8 (counterexample): derived fields are not always fully recomputed —
two items with the same current `item_xml` and the same successful parse
outcome (a segment with no `source` element) reload to different `source`
fields, because a missing `source` element leaves the stale value from an
earlier parse in place. -/
theorem c8_counterexample :
    (⟨"<seg></seg>", none, some ("old source", []), none, none⟩ :
        ItemState).item_xml =
      (⟨"<seg></seg>", none, none, none, none⟩ : ItemState).item_xml ∧
    (RankingTask.reload_dynamic_fields (Except.ok ⟨[], none, none, []⟩)
        ⟨"<seg></seg>", none, some ("old source", []), none, none⟩).source ≠
      (RankingTask.reload_dynamic_fields (Except.ok ⟨[], none, none, []⟩)
        ⟨"<seg></seg>", none, none, none, none⟩).source := by
  exact ⟨rfl, by decide⟩

/-- C9: `update_status_if_changed` appends a `(key, value)` row exactly
when there is no prior row for `key` or the most recent prior row holds a
different value (and otherwise leaves the log unchanged); in particular
the call sequence `("stats","v1"), ("stats","v1"), ("stats","v2")` on an
empty log yields exactly the two rows v1 then v2. -/
theorem c9_update_status (db : List (String × String)) (key value : String) :
    (update_status_if_changed db key value = db ++ [(key, value)] ↔
      lastValueFor db key ≠ some value) ∧
    (lastValueFor db key = some value →
      update_status_if_changed db key value = db) ∧
    update_status_if_changed (update_status_if_changed
      (update_status_if_changed [] "stats" "v1") "stats" "v1") "stats" "v2" =
      [("stats", "v1"), ("stats", "v2")] := by
  refine ⟨?_, ?_, by decide⟩
  · unfold update_status_if_changed
    cases hl : lastValueFor db key with
    | none => simp
    | some v =>
      by_cases hv : v = value
      · subst hv
        simp
      · simp [hv]
  · intro hl
    unfold update_status_if_changed
    rw [hl]
    simp

/-- C4 (amended): `export_to_ranking_xml`, `export_to_pairwise_csv` and
`export_to_apf` read the result state without modifying it (they are
plain functions of it in this embedding, as in the source, which never
assigns to `self` in those methods); `export_to_csv` also leaves the
state unchanged whenever the parsed rank list is a non-empty list — but
not when it is empty or absent, where it overwrites `results` (see the
counterexample and C10). -/
theorem c4_export_frame (expand : Bool) (user : String)
    (hitAttrs : List (String × String)) (item : ItemState) (st st2 : RRState)
    (rows : List (List String)) (l : List Int)
    (hres : st.results = PyResults.ranks l) (hne : l ≠ [])
    (h : export_to_csv expand user hitAttrs item st = some (st2, rows)) :
    st2 = st := by
  unfold export_to_csv at h
  simp only [Option.bind_eq_some, Option.map_eq_some'] at h
  obtain ⟨bs, hb, nr, hn, heq⟩ := h
  have hie : l.isEmpty = false := List.isEmpty_eq_false.mpr hne
  have hd : csvDefaulted bs.2 st = st := by
    simp [csvDefaulted, resultsFalsy, hres, hie]
  rw [hd] at heq
  injection heq with h1 h2
  exact h1.symm

/-- C4 (counterexample): the exports are not all pure functions of the
loaded data — `export_to_csv` on a skipped result (absent rank list)
overwrites the derived rank list with `[-1, -1, -1, -1, -1]`. -/
theorem c4_counterexample :
    stSkippedEx.results = PyResults.unset ∧
    (export_to_csv false "alice" hitAttrsEx itemABCDE stSkippedEx).map
      (fun p => p.1.results) = some (PyResults.ranks [-1, -1, -1, -1, -1]) := by
  exact ⟨rfl, by decide⟩

/-- C4 (witness): a non-empty rank list is left unchanged by
`export_to_csv`. -/
theorem c4_witness :
    ({ raw_result := "1,2,3,4,5", results := PyResults.ranks [1, 2, 3, 4, 5],
        systems := 5 } : RRState) = stRanks12345 :=
  c4_export_frame false "alice" hitAttrsEx itemABCDE stRanks12345
    { raw_result := "1,2,3,4,5", results := PyResults.ranks [1, 2, 3, 4, 5],
      systems := 5 }
    [["DA", "Czech", "3", "-1", "3", "alice", "-1", "A", "-1", "B", "-1", "C",
      "-1", "D", "-1", "E", "1", "2", "3", "4", "5"]]
    [1, 2, 3, 4, 5] rfl (by decide) (by decide)

/-- C10: when the parsed rank list is empty or absent (e.g. a skipped
result), `export_to_csv` does not skip the result: it substitutes rank
-1 for every candidate slot — overwriting the derived rank list with
`[-1] * candidateCount` as a side effect — and emits the normal
`PLACEHOLDER`-padded rows, every rank cell of every row being `-1`. -/
theorem c10_csv_empty_results (user : String)
    (hitAttrs : List (String × String)) (item : ItemState)
    (st st2 : RRState) (rows : List (List String)) (ts : List Translation)
    (hres : st.results = PyResults.unset ∨ st.results = PyResults.ranks [])
    (hts : item.translations = some ts)
    (h : export_to_csv false user hitAttrs item st = some (st2, rows)) :
    st2 = { st with
      results := PyResults.ranks (List.replicate ts.length (-1)) } ∧
    rows.length = (ts.length + 4) / 5 ∧
    ∀ row ∈ rows, row.drop 16 = List.replicate 5 "-1" := by
  unfold export_to_csv at h
  simp only [Option.bind_eq_some, Option.map_eq_some'] at h
  obtain ⟨bs, hb, nr, hn, heq⟩ := h
  rcases bs with ⟨base, systems⟩
  obtain ⟨hsys, sn, tn, si, hbase⟩ := csvBase_inv hb hts
  have hL : systems.length = ts.length := systemsOf_length hsys
  have hfalsy : resultsFalsy st.results = true := by
    rcases hres with h1 | h1 <;> simp [resultsFalsy, h1, List.isEmpty]
  have hdef : csvDefaulted systems st = { st with
      results := PyResults.ranks (List.replicate systems.length (-1)) } := by
    simp [csvDefaulted, hfalsy]
  rw [hdef] at hn heq
  simp only [] at hn
  rw [buildNamesRanks_neg1 systems 0 systems.length (by omega)] at hn
  have hnr : nr = (systems.map replaceCommaPlus,
      List.replicate systems.length "-1") := (Option.some.inj hn).symm
  subst hnr
  injection heq with h1 h2
  have hnl : (systems.map replaceCommaPlus).length = systems.length :=
    List.length_map _ _
  have hrep : List.replicate systems.length "-1" =
      List.replicate (systems.map replaceCommaPlus).length "-1" := by
    rw [hnl]
  refine ⟨?_, ?_, ?_⟩
  · rw [hL] at h1
    exact h1.symm
  · rw [← h2, csvRows_length, List.length_map, hL]
  · intro row hrow
    rw [← h2] at hrow
    obtain ⟨blk, hblk, hfeq⟩ := List.mem_map.mp hrow
    rw [hrep] at hblk
    rw [pad5_replicate (systems.map replaceCommaPlus)] at hblk
    have hpm : (pad5 (systems.map replaceCommaPlus)
        (List.replicate (systems.map replaceCommaPlus).length "-1")).1.length
          % 5 = 0 := by
      rw [pad5_fst_length, List.length_map]
      by_cases hm : systems.length % 5 > 0
      · rw [if_pos hm]
        omega
      · rw [if_neg hm]
        omega
    obtain ⟨hb5, hbrep⟩ := rowBlocks_replicate _ _ rfl hpm blk hblk
    obtain ⟨n1, n2, n3, n4, n5, hblk1⟩ := exists_eq_of_length_five blk.1 hb5
    rw [← hfeq, hbase, hblk1, hbrep]
    rfl

/-- C10 (witness): the skipped fixture is exported with all ranks -1 and
its rank list overwritten. -/
theorem c10_witness :
    ({ raw_result := "SKIPPED",
        results := PyResults.ranks (List.replicate transABCDE.length (-1)),
        systems := 0 } : RRState) =
      { stSkippedEx with
        results := PyResults.ranks (List.replicate transABCDE.length (-1)) } ∧
    ([["DA", "Czech", "3", "-1", "3", "alice", "-1", "A", "-1", "B", "-1",
      "C", "-1", "D", "-1", "E", "-1", "-1", "-1", "-1", "-1"]] :
        List (List String)).length = (transABCDE.length + 4) / 5 ∧
    (["DA", "Czech", "3", "-1", "3", "alice", "-1", "A", "-1", "B", "-1",
      "C", "-1", "D", "-1", "E", "-1", "-1", "-1", "-1", "-1"] :
        List String).drop 16 = List.replicate 5 "-1" := by
  have h := c10_csv_empty_results "alice" hitAttrsEx itemABCDE stSkippedEx
    { raw_result := "SKIPPED",
      results := PyResults.ranks (List.replicate transABCDE.length (-1)),
      systems := 0 }
    [["DA", "Czech", "3", "-1", "3", "alice", "-1", "A", "-1", "B", "-1",
      "C", "-1", "D", "-1", "E", "-1", "-1", "-1", "-1", "-1"]]
    transABCDE (Or.inl rfl) rfl (by decide)
  exact ⟨h.1, h.2.1, h.2.2 _ (by decide)⟩

/-- C6: `export_to_csv` (with the default `expand_multi_systems=False`)
produces exactly `⌈candidateCount / 5⌉` rows, and when
`candidateCount % 5 ≠ 0` the last row is padded with the literal system
name `PLACEHOLDER` and rank `-1` for the missing slots. -/
theorem c6_csv_row_count (user : String) (hitAttrs : List (String × String))
    (item : ItemState) (st st2 : RRState) (rows : List (List String))
    (ts : List Translation)
    (hts : item.translations = some ts)
    (h : export_to_csv false user hitAttrs item st = some (st2, rows)) :
    rows.length = (ts.length + 4) / 5 ∧
    (ts.length % 5 ≠ 0 →
      ∃ base front lastN lastR,
        rows = front ++ [base ++
          slotCells (lastN ++
            List.replicate (5 - ts.length % 5) "PLACEHOLDER") ++
          (lastR ++ List.replicate (5 - ts.length % 5) "-1")] ∧
        lastN.length = ts.length % 5 ∧ lastR.length = ts.length % 5) := by
  unfold export_to_csv at h
  simp only [Option.bind_eq_some, Option.map_eq_some'] at h
  obtain ⟨bs, hb, nr, hn, heq⟩ := h
  rcases bs with ⟨base, systems⟩
  obtain ⟨hsys, sn, tn, si, hbase⟩ := csvBase_inv hb hts
  have hL : systems.length = ts.length := systemsOf_length hsys
  rcases nr with ⟨names, ranks⟩
  obtain ⟨hnl, hrl⟩ := buildNamesRanks_false_lengths systems 0 _ names ranks hn
  injection heq with h1 h2
  constructor
  · rw [← h2, csvRows_length, hnl, hL]
  · intro hmod
    have hLn : names.length = ts.length := by rw [hnl, hL]
    have hLr : ranks.length = ts.length := by rw [hrl, hL]
    have hpad : pad5 names ranks =
        (names ++ List.replicate (5 - ts.length % 5) "PLACEHOLDER",
         ranks ++ List.replicate (5 - ts.length % 5) "-1") := by
      unfold pad5
      rw [if_pos (by omega), hLn]
    have hsplitn : names = names.take (5 * (ts.length / 5)) ++
        names.drop (5 * (ts.length / 5)) := (List.take_append_drop _ _).symm
    have hsplitr : ranks = ranks.take (5 * (ts.length / 5)) ++
        ranks.drop (5 * (ts.length / 5)) := (List.take_append_drop _ _).symm
    have htl : (names.take (5 * (ts.length / 5))).length =
        5 * (ts.length / 5) := by
      rw [List.length_take]
      omega
    have htlr : (ranks.take (5 * (ts.length / 5))).length =
        5 * (ts.length / 5) := by
      rw [List.length_take]
      omega
    have hdl : (names.drop (5 * (ts.length / 5))).length = ts.length % 5 := by
      rw [List.length_drop]
      omega
    have hdlr : (ranks.drop (5 * (ts.length / 5))).length = ts.length % 5 := by
      rw [List.length_drop]
      omega
    have hblocks : rowBlocks
        (names ++ List.replicate (5 - ts.length % 5) "PLACEHOLDER")
        (ranks ++ List.replicate (5 - ts.length % 5) "-1") =
        rowBlocks (names.take (5 * (ts.length / 5)))
          (ranks.take (5 * (ts.length / 5))) ++
        [(names.drop (5 * (ts.length / 5)) ++
            List.replicate (5 - ts.length % 5) "PLACEHOLDER",
          ranks.drop (5 * (ts.length / 5)) ++
            List.replicate (5 - ts.length % 5) "-1")] := by
      conv_lhs => rw [hsplitn, hsplitr]
      rw [List.append_assoc, List.append_assoc,
        rowBlocks_append (5 * (ts.length / 5)) _ _ _ _ htl (by omega) htlr,
        rowBlocks_exact5
          (names.drop (5 * (ts.length / 5)) ++
            List.replicate (5 - ts.length % 5) "PLACEHOLDER")
          (ranks.drop (5 * (ts.length / 5)) ++
            List.replicate (5 - ts.length % 5) "-1")
          (by rw [List.length_append, hdl, List.length_replicate]; omega)
          (by rw [List.length_append, hdlr, List.length_replicate]; omega)]
    refine ⟨base, (rowBlocks (names.take (5 * (ts.length / 5)))
      (ranks.take (5 * (ts.length / 5)))).map
        (fun blk => base ++ slotCells blk.1 ++ blk.2),
      names.drop (5 * (ts.length / 5)), ranks.drop (5 * (ts.length / 5)),
      ?_, hdl, hdlr⟩
    rw [← h2]
    show (rowBlocks (pad5 names ranks).1 (pad5 names ranks).2).map
      (fun blk => base ++ slotCells blk.1 ++ blk.2) = _
    rw [hpad]
    show (rowBlocks
      (names ++ List.replicate (5 - ts.length % 5) "PLACEHOLDER")
      (ranks ++ List.replicate (5 - ts.length % 5) "-1")).map
        (fun blk => base ++ slotCells blk.1 ++ blk.2) = _
    rw [hblocks, List.map_append]
    rfl

/-- C6 (witness): a seven-candidate item is exported as two rows, the
second padded with three PLACEHOLDER slots carrying rank -1. -/
theorem c6_witness :
    (2 : Nat) = (7 + 4) / 5 ∧
    ∃ base front lastN lastR,
      ([["DA", "Czech", "3", "-1", "3", "alice", "-1", "A", "-1", "B", "-1",
          "C", "-1", "D", "-1", "E", "1", "2", "3", "4", "5"],
        ["DA", "Czech", "3", "-1", "3", "alice", "-1", "F", "-1", "G", "-1",
          "PLACEHOLDER", "-1", "PLACEHOLDER", "-1", "PLACEHOLDER", "1", "2",
          "-1", "-1", "-1"]] : List (List String)) = front ++ [base ++
        slotCells (lastN ++ List.replicate (5 - 7 % 5) "PLACEHOLDER") ++
        (lastR ++ List.replicate (5 - 7 % 5) "-1")] ∧
      lastN.length = 7 % 5 ∧ lastR.length = 7 % 5 := by
  have h := c6_csv_row_count "alice" hitAttrsEx
    { item_xml := "<seg id=\"3\"/>"
      attributes := some [("id", "3")]
      source := some ("source text", [("id", "3")])
      reference := none
      translations := some [("t1", [("system", "A")]),
        ("t2", [("system", "B")]), ("t3", [("system", "C")]),
        ("t4", [("system", "D")]), ("t5", [("system", "E")]),
        ("t6", [("system", "F")]), ("t7", [("system", "G")])] }
    { raw_result := "1,2,3,4,5,1,2",
      results := PyResults.ranks [1, 2, 3, 4, 5, 1, 2], systems := 7 }
    { raw_result := "1,2,3,4,5,1,2",
      results := PyResults.ranks [1, 2, 3, 4, 5, 1, 2], systems := 7 }
    [["DA", "Czech", "3", "-1", "3", "alice", "-1", "A", "-1", "B", "-1",
      "C", "-1", "D", "-1", "E", "1", "2", "3", "4", "5"],
     ["DA", "Czech", "3", "-1", "3", "alice", "-1", "F", "-1", "G", "-1",
      "PLACEHOLDER", "-1", "PLACEHOLDER", "-1", "PLACEHOLDER", "1", "2",
      "-1", "-1", "-1"]]
    [("t1", [("system", "A")]), ("t2", [("system", "B")]),
     ("t3", [("system", "C")]), ("t4", [("system", "D")]),
     ("t5", [("system", "E")]), ("t6", [("system", "F")]),
     ("t7", [("system", "G")])]
    rfl (by decide)
  exact ⟨h.1.symm, h.2 (by decide)⟩

/-- C5 (amended): provided the result yields at least two distinct
`(systemName, rank)` groups, `export_to_pairwise_csv` emits — exactly
once, the output being duplicate-free — one row for each unordered pair
of constituents of every group joining more than one constituent system,
both constituents carrying the group's shared rank.  (With fewer than two
groups the `combinations(systems, 2)` loop never runs and no intra-group
row is emitted; see the counterexample.) -/
theorem c5_pairwise_ties (user itemId : String)
    (hitAttrs : List (String × String)) (item : ItemState) (st : RRState)
    (ts : List Translation) (groups : List (String × Int))
    (sl tl sn tn si : String) (src : String × List (String × String))
    (rows : List String)
    (hres : st.results ≠ PyResults.unset)
    (hsl : List.lookup "source-language" hitAttrs = some sl)
    (htl : List.lookup "target-language" hitAttrs = some tl)
    (hsn : langName sl = some sn) (htn : langName tl = some tn)
    (hts : item.translations = some ts)
    (hg : buildPairSystems st.results ts 0 [] = some groups)
    (h2 : 2 ≤ groups.length)
    (hsrc : item.source = some src)
    (hsi : List.lookup "id" src.2 = some si)
    (h : export_to_pairwise_csv user hitAttrs itemId item st = some rows) :
    rows.Nodup ∧
    ∀ g ∈ groups, ∀ p ∈ combos2 (splitChar '+' g.1),
      mkPairRow [sn, tn, si, si, user] itemId p.1 g.2 p.2 g.2 ∈ rows := by
  rcases groups with _ | ⟨g1, _ | ⟨g2, gs⟩⟩
  · simp at h2
  · simp at h2
  have hrows : rows = (combos2 (g1 :: g2 :: gs)).foldl
      (fun out p => crossRows [sn, tn, si, si, user] itemId p.1 p.2 out)
      [] := by
    rcases hstres : st.results with _ | l | _
    · exact absurd hstres hres
    · rw [hstres] at hg
      simp only [export_to_pairwise_csv, hstres, hsl, htl, hsn, htn, hts, hg,
        hsrc, hsi, combos2_cons2_ne_empty, Bool.false_eq_true, if_false,
        Option.some_bind, Option.some.injEq] at h
      exact h.symm
    · rw [hstres] at hg
      simp only [export_to_pairwise_csv, hstres, hsl, htl, hsn, htn, hts, hg,
        hsrc, hsi, combos2_cons2_ne_empty, Bool.false_eq_true, if_false,
        Option.some_bind, Option.some.injEq] at h
      exact h.symm
  subst hrows
  constructor
  · exact foldl_nodup (fun o x ho => crossRows_nodup ho) _ List.nodup_nil
  · intro g hgg p hp
    obtain ⟨q, hq, hor⟩ := combos2_cover h2 hgg
    rcases hor with h1 | h1
    · refine foldl_mem_of_mem_step
        (fun o x s hs => crossRows_preserve hs) (fun o => ?_) _ _ hq
      rw [h1]
      exact crossRows_intra_left hp
    · refine foldl_mem_of_mem_step
        (fun o x s hs => crossRows_preserve hs) (fun o => ?_) _ _ hq
      rw [h1]
      exact crossRows_intra_right hp

/-- C5 (counterexample): a non-skipped result whose single candidate slot
is shared by the tied systems A and B forms one group "A+B" with two
constituents, yet `export_to_pairwise_csv` emits no row at all — the
intra-group tie rows only arise inside the loop over pairs of distinct
groups, which is empty here. -/
theorem c5_counterexample :
    export_to_pairwise_csv "alice" hitAttrsEx "7" itemMulti stRank1 =
      some [] ∧
    1 < (splitChar '+' (replaceCommaPlus "A,B")).length := by
  exact ⟨by decide, by decide⟩

/-- C5 (witness): with two groups ("A+B" rank 1, "C" rank 2) the tie row
`A,1,B,1` is emitted and the output is duplicate-free. -/
theorem c5_witness :
    (["DA,Czech,3,3,alice,A,1,C,2,7", "DA,Czech,3,3,alice,B,1,C,2,7",
      "DA,Czech,3,3,alice,A,1,B,1,7"] : List String).Nodup ∧
    mkPairRow ["DA", "Czech", "3", "3", "alice"] "7" "A" 1 "B" 1 ∈
      (["DA,Czech,3,3,alice,A,1,C,2,7", "DA,Czech,3,3,alice,B,1,C,2,7",
        "DA,Czech,3,3,alice,A,1,B,1,7"] : List String) := by
  have h := c5_pairwise_ties "alice" "7" hitAttrsEx itemTwoGroups stRanks12
    [("translation AB", [("system", "A,B")]),
     ("translation C", [("system", "C")])]
    [("A+B", 1), ("C", 2)] "ina" "ces" "DA" "Czech" "3"
    ("source text", [("id", "3")])
    ["DA,Czech,3,3,alice,A,1,C,2,7", "DA,Czech,3,3,alice,B,1,C,2,7",
     "DA,Czech,3,3,alice,A,1,B,1,7"]
    (by decide) rfl rfl rfl rfl rfl (by decide) (by decide) rfl rfl
    (by decide)
  exact ⟨h.1, h.2 ("A+B", 1) (by decide) ("A", "B") (by decide)⟩

/-- C3: for a non-skipped result over an item with exactly five candidate
slots, an integer rank per slot, and a `system` attribute per slot,
`export_to_apf` emits exactly `Σ |systems(a)| × |systems(b)|` triples over
the C(5,2) unordered slot pairs `(a, b)` — `systems(s)` being slot `s`'s
comma-split constituent list — and the triple emitted for constituents
`(sa, sb)` of pair `(a, b)` carries operator `>` iff `rank(a) > rank(b)`,
`<` iff `rank(a) < rank(b)`, and `=` otherwise. -/
theorem c3_apf_shape (user : String) (item : ItemState) (st : RRState)
    (ranks : List Int) (ts : List Translation) (systems : List String)
    (src : String × List (String × String)) (srcId : String)
    (out : List String)
    (hres : st.results = PyResults.ranks ranks) (h5 : ranks.length = 5)
    (hts : item.translations = some ts) (hts5 : ts.length = 5)
    (hsys : systemsOf ts = some systems)
    (hsrc : item.source = some src)
    (hid : List.lookup "id" src.2 = some srcId)
    (hout : export_to_apf user item st = some out) :
    out.length = ((combos2 (List.range 5)).map (fun p =>
      (splitChar ',' (systems.getD p.1 "")).length *
        (splitChar ',' (systems.getD p.2 "")).length)).sum ∧
    ∀ p ∈ combos2 (List.range 5),
      ∀ sa ∈ splitChar ',' (systems.getD p.1 ""),
        ∀ sb ∈ splitChar ',' (systems.getD p.2 ""),
          apfLine user srcId p.1 p.2 sa
            (if ranks.getD p.1 0 > ranks.getD p.2 0 then ">"
             else if ranks.getD p.1 0 < ranks.getD p.2 0 then "<" else "=")
            sb ∈ out := by
  obtain ⟨s0, s1, s2, s3, s4, rfl⟩ := exists_eq_of_length_five systems
    (by rw [systemsOf_length hsys, hts5])
  obtain ⟨r0, r1, r2, r3, r4, rfl⟩ := exists_eq_of_length_five ranks h5
  have hcombos : combos2 (List.range 5) =
      [(0, 1), (0, 2), (0, 3), (0, 4), (1, 2), (1, 3), (1, 4), (2, 3),
       (2, 4), (3, 4)] := by decide
  have hval : export_to_apf user item st = some
      (apfBlock user srcId 0 1 s0 s1 r0 r1 ++
      (apfBlock user srcId 0 2 s0 s2 r0 r2 ++
      (apfBlock user srcId 0 3 s0 s3 r0 r3 ++
      (apfBlock user srcId 0 4 s0 s4 r0 r4 ++
      (apfBlock user srcId 1 2 s1 s2 r1 r2 ++
      (apfBlock user srcId 1 3 s1 s3 r1 r3 ++
      (apfBlock user srcId 1 4 s1 s4 r1 r4 ++
      (apfBlock user srcId 2 3 s2 s3 r2 r3 ++
      (apfBlock user srcId 2 4 s2 s4 r2 r4 ++
      (apfBlock user srcId 3 4 s3 s4 r3 r4 ++ [])))))))))) := by
    simp only [export_to_apf, hres, hts, hsys, hsrc, hid, hcombos,
      List.isEmpty_cons, Bool.false_eq_true, if_false]
    rfl
  rw [hval] at hout
  obtain rfl := Option.some.inj hout
  have g0 : ([s0, s1, s2, s3, s4] : List String).getD 0 "" = s0 := rfl
  have g1 : ([s0, s1, s2, s3, s4] : List String).getD 1 "" = s1 := rfl
  have g2 : ([s0, s1, s2, s3, s4] : List String).getD 2 "" = s2 := rfl
  have g3 : ([s0, s1, s2, s3, s4] : List String).getD 3 "" = s3 := rfl
  have g4 : ([s0, s1, s2, s3, s4] : List String).getD 4 "" = s4 := rfl
  constructor
  · rw [hcombos]
    simp only [List.map_cons, List.map_nil, List.sum_cons, List.sum_nil,
      g0, g1, g2, g3, g4, List.length_append, apfBlock, List.length_map,
      pyProduct_length, List.length_nil]
  · intro p hp
    rw [hcombos] at hp
    simp only [List.mem_cons, List.not_mem_nil, or_false] at hp
    rcases hp with rfl | rfl | rfl | rfl | rfl | rfl | rfl | rfl | rfl | rfl <;>
      intro sa hsa sb hsb
    · exact List.mem_append_left _ (mem_apfBlock hsa hsb)
    · exact List.mem_append_right _
        (List.mem_append_left _ (mem_apfBlock hsa hsb))
    · exact List.mem_append_right _ (List.mem_append_right _
        (List.mem_append_left _ (mem_apfBlock hsa hsb)))
    · exact List.mem_append_right _ (List.mem_append_right _
        (List.mem_append_right _
          (List.mem_append_left _ (mem_apfBlock hsa hsb))))
    · exact List.mem_append_right _ (List.mem_append_right _
        (List.mem_append_right _ (List.mem_append_right _
          (List.mem_append_left _ (mem_apfBlock hsa hsb)))))
    · exact List.mem_append_right _ (List.mem_append_right _
        (List.mem_append_right _ (List.mem_append_right _
          (List.mem_append_right _
            (List.mem_append_left _ (mem_apfBlock hsa hsb))))))
    · exact List.mem_append_right _ (List.mem_append_right _
        (List.mem_append_right _ (List.mem_append_right _
          (List.mem_append_right _ (List.mem_append_right _
            (List.mem_append_left _ (mem_apfBlock hsa hsb)))))))
    · exact List.mem_append_right _ (List.mem_append_right _
        (List.mem_append_right _ (List.mem_append_right _
          (List.mem_append_right _ (List.mem_append_right _
            (List.mem_append_right _
              (List.mem_append_left _ (mem_apfBlock hsa hsb))))))))
    · exact List.mem_append_right _ (List.mem_append_right _
        (List.mem_append_right _ (List.mem_append_right _
          (List.mem_append_right _ (List.mem_append_right _
            (List.mem_append_right _ (List.mem_append_right _
              (List.mem_append_left _ (mem_apfBlock hsa hsb)))))))))
    · exact List.mem_append_right _ (List.mem_append_right _
        (List.mem_append_right _ (List.mem_append_right _
          (List.mem_append_right _ (List.mem_append_right _
            (List.mem_append_right _ (List.mem_append_right _
              (List.mem_append_right _
                (List.mem_append_left _ (mem_apfBlock hsa hsb))))))))))

/-- C3 (witness): the A..E fixture emits exactly 10 = Σ 1×1 triples, and
the (0,1) triple compares ranks 1 and 2. -/
theorem c3_witness :
    (["alice,3.1.2,A<B", "alice,3.1.3,A<C", "alice,3.1.4,A<D",
      "alice,3.1.5,A<E", "alice,3.2.3,B<C", "alice,3.2.4,B<D",
      "alice,3.2.5,B<E", "alice,3.3.4,C<D", "alice,3.3.5,C<E",
      "alice,3.4.5,D<E"] : List String).length =
      ((combos2 (List.range 5)).map (fun p =>
        (splitChar ',' ((["A", "B", "C", "D", "E"] : List String).getD
          p.1 "")).length *
        (splitChar ',' ((["A", "B", "C", "D", "E"] : List String).getD
          p.2 "")).length)).sum ∧
    apfLine "alice" "3" 0 1 "A"
      (if (1 : Int) > 2 then ">" else if (1 : Int) < 2 then "<" else "=")
      "B" ∈
      (["alice,3.1.2,A<B", "alice,3.1.3,A<C", "alice,3.1.4,A<D",
        "alice,3.1.5,A<E", "alice,3.2.3,B<C", "alice,3.2.4,B<D",
        "alice,3.2.5,B<E", "alice,3.3.4,C<D", "alice,3.3.5,C<E",
        "alice,3.4.5,D<E"] : List String) := by
  have h := c3_apf_shape "alice" itemABCDE stRanks12345 [1, 2, 3, 4, 5]
    transABCDE ["A", "B", "C", "D", "E"] ("source text", [("id", "3")]) "3"
    ["alice,3.1.2,A<B", "alice,3.1.3,A<C", "alice,3.1.4,A<D",
     "alice,3.1.5,A<E", "alice,3.2.3,B<C", "alice,3.2.4,B<D",
     "alice,3.2.5,B<E", "alice,3.3.4,C<D", "alice,3.3.5,C<E",
     "alice,3.4.5,D<E"]
    rfl rfl rfl rfl (by decide) rfl (by decide) (by decide)
  exact ⟨h.1, h.2 (0, 1) (by decide) "A" (by decide) "B" (by decide)⟩

end Appraise
